import Mathlib

/-!
Verification of the filing-discovery and resilient-retrieval pipeline of
`src/Programs/download_sec.py`.

The Python code is shallowly embedded: decoded JSON values become the
inductive `JVal`, Python exceptions become `PyErr`/`Except`, the network is a
function from URL to decoded page (or, for the byte fetcher, a stream of
`(status, body)` responses), and the filesystem destination of a fetch is an
`Option String` (the file's content, `none` when the path does not exist).
-/

namespace SecDownload

/-- A decoded JSON value, as returned by `requests.Response.json()`. -/
inductive JVal where
  | null
  | bool (b : Bool)
  | num (n : Int)
  | str (s : String)
  | arr (elems : List JVal)
  | obj (fields : List (String × JVal))

/-- Python exceptions that the embedded code paths can raise. -/
inductive PyErr where
  | attributeError
  | typeError
  | keyError
  | indexError
deriving DecidableEq

/-- Key lookup in a decoded JSON object (`json.loads` yields unique keys). -/
def jget (fields : List (String × JVal)) (k : String) : Option JVal :=
  (fields.find? (fun p => p.1 == k)).map (fun p => p.2)

/-- `v.get(k, dflt)`: dictionary lookup with default; any non-dict receiver
raises `AttributeError` (it has no `get` method). -/
def pyGetD (v : JVal) (k : String) (dflt : JVal) : Except PyErr JVal :=
  match v with
  | .obj fields => .ok ((jget fields k).getD dflt)
  | _ => .error .attributeError

/-- Python truthiness of a decoded JSON value. -/
def truthy : JVal → Bool
  | .null => false
  | .bool b => b
  | .num n => n != 0
  | .str s => s != ""
  | .arr xs => !xs.isEmpty
  | .obj fs => !fs.isEmpty

/-- `len(v)`: defined for sequences, strings and dicts; `TypeError` otherwise. -/
def pyLen : JVal → Except PyErr Nat
  | .arr xs => .ok xs.length
  | .str s => .ok s.length
  | .obj fs => .ok fs.length
  | _ => .error .typeError

/-- `v[i]` for a non-negative integer `i`: list/str indexing; a dict raises
`KeyError` (JSON object keys are strings, so an integer key is absent);
anything else raises `TypeError`. -/
def pyIndex : JVal → Nat → Except PyErr JVal
  | .arr xs, i =>
      match xs.get? i with
      | some x => .ok x
      | none => .error .indexError
  | .str s, i =>
      match s.data.get? i with
      | some c => .ok (.str (String.singleton c))
      | none => .error .indexError
  | .obj _, _ => .error .keyError
  | _, _ => .error .typeError

/-- `for x in v`: arrays yield their elements, strings their one-character
substrings, dicts their keys; other values raise `TypeError`. -/
def pyIter : JVal → Except PyErr (List JVal)
  | .arr xs => .ok xs
  | .str s => .ok (s.data.map (fun c => .str (String.singleton c)))
  | .obj fs => .ok (fs.map (fun p => .str p.1))
  | _ => .error .typeError

/-! ## History enumerator: `iter_filings_from_submissions` and
`_iter_filings_from_chunk` -/

/-- The four fields `_iter_filings_from_chunk` requires of a record. -/
def requiredKeys : List String :=
  ["form", "accessionNumber", "filingDate", "primaryDocument"]

/-- `isinstance(f, dict) and all(k in f for k in (...))`. -/
def isRecordShaped : JVal → Bool
  | .obj fields => requiredKeys.all (fun k => (jget fields k).isSome)
  | _ => false

/-- `_iter_filings_from_chunk`, applied to the already-decoded page `data`
(the `session.get` / `raise_for_status` part is the network model at the
call site): `data.get("filings", [])`, iterate, and yield every entry that
is a dict carrying all four required keys. -/
def iterFilingsFromChunk (data : JVal) : Except PyErr (List JVal) := do
  let filings ← pyGetD data "filings" (.arr [])
  let items ← pyIter filings
  .ok (items.filter isRecordShaped)

/-- Python `s.endswith(suffix)`: `suffix` is a suffix of `s`. -/
def pyEndsWith (s suffix : String) : Bool := suffix.data.isSuffixOf s.data

def SEC_SUBMISSIONS_BASE : String := "https://data.sec.gov/submissions/"

/-- `urljoin("https://data.sec.gov/submissions/", name)` for the plain
relative file names that appear in the overflow manifest. -/
def olderUrl (name : String) : String := SEC_SUBMISSIONS_BASE ++ name

/-- The `for chunk in filings.get("files", [])` loop: skip entries whose
`name` is missing/falsy or does not end in `".json"`, otherwise fetch the
chunk (via the network model `net`, keyed by resolved URL) and yield its
records.  A truthy non-string name raises `AttributeError` (`endswith` on a
non-string), and a non-dict chunk raises `AttributeError` (`get`). -/
def chunksRecords (net : String → JVal) : List JVal → Except PyErr (List JVal)
  | [] => .ok []
  | chunk :: rest => do
      let name ← pyGetD chunk "name" .null
      if truthy name then
        match name with
        | .str s =>
            if pyEndsWith s ".json" then do
              let recs ← iterFilingsFromChunk (net (olderUrl s))
              let more ← chunksRecords net rest
              .ok (recs ++ more)
            else chunksRecords net rest
        | _ => .error .attributeError
      else chunksRecords net rest

/-- The record dict yielded for index `i` of the recent page. -/
def mkRecord (f a d p : JVal) : JVal :=
  .obj [("form", f), ("accessionNumber", a), ("filingDate", d),
        ("primaryDocument", p)]

/-- The `for i in range(n): yield {...}` loop over the recent page's four
parallel arrays, iterating `i = 0, …, n-1` in order (rendered as a
snoc-recursion on the loop bound). -/
def recentLoop (forms accs dates prims : JVal) : Nat → Except PyErr (List JVal)
  | 0 => .ok []
  | n + 1 => do
      let pre ← recentLoop forms accs dates prims n
      let f ← pyIndex forms n
      let a ← pyIndex accs n
      let d ← pyIndex dates n
      let p ← pyIndex prims n
      .ok (pre ++ [mkRecord f a d p])

/-- `iter_filings_from_submissions(submissions, session)`, with the network
modelled by `net : URL → decoded page`: decode the recent page bounded by
the shortest of the four parallel arrays, then walk the overflow manifest. -/
def iterFilingsFromSubmissions (net : String → JVal) (submissions : JVal) :
    Except PyErr (List JVal) := do
  let filings ← pyGetD submissions "filings" (.obj [])
  let recent ← pyGetD filings "recent" (.obj [])
  let forms ← pyGetD recent "form" (.arr [])
  let accs ← pyGetD recent "accessionNumber" (.arr [])
  let dates ← pyGetD recent "filingDate" (.arr [])
  let prims ← pyGetD recent "primaryDocument" (.arr [])
  let nf ← pyLen forms
  let na ← pyLen accs
  let nd ← pyLen dates
  let np2 ← pyLen prims
  let recentRecs ← recentLoop forms accs dates prims (min (min nf na) (min nd np2))
  let files ← pyGetD filings "files" (.arr [])
  let chunks ← pyIter files
  let olderRecs ← chunksRecords net chunks
  .ok (recentRecs ++ olderRecs)

/-- Specification-level description of the recent-page decoding: zip the
four arrays positionally, truncated to the shortest length. -/
def recentZip (forms accs dates prims : List JVal) : List JVal :=
  (List.range (min (min forms.length accs.length) (min dates.length prims.length))).map
    (fun i => mkRecord (forms.getD i .null) (accs.getD i .null)
        (dates.getD i .null) (prims.getD i .null))

/-- The claim's notion of a well-shaped overflow page: an object whose
`filings` member is an array of record-shaped objects. -/
def pageWellShaped : JVal → Bool
  | .obj fields =>
      match jget fields "filings" with
      | some (.arr items) => items.all isRecordShaped
      | _ => false
  | _ => false

/-- A well-formed filing record used in concrete instances. -/
def goodRec : JVal :=
  mkRecord (.str "10-K") (.str "0000320193-23-000106") (.str "2023-11-03")
    (.str "doc.htm")

/-! ## Selection and ordering (`main`, lines 245–275) -/

/-- Python `str.upper()` (the data here is ASCII). -/
def pyUpper (s : String) : String := ⟨s.data.map Char.toUpper⟩

/-- `forms_wanted = set(f.upper() for f in forms)`, expanded with
`{f + "/A" for f in forms_wanted}` when amendments are included (a list
standing for the set; only membership is ever used). -/
def expandForms (forms : List String) (includeAmendments : Bool) : List String :=
  let base := forms.map pyUpper
  if includeAmendments then base ++ base.map (fun f => f ++ "/A") else base

/-- `f.get("form", "").upper() in forms_wanted` for one record: a non-dict
record or a non-string form raises `AttributeError`. -/
def formSelected (wanted : List String) (f : JVal) : Except PyErr Bool :=
  match f with
  | .obj fields =>
      match (jget fields "form").getD (.str "") with
      | .str s => .ok (wanted.contains (pyUpper s))
      | _ => .error .attributeError
  | _ => .error .attributeError

/-- `[f for f in filings if f.get("form", "").upper() in forms_wanted]`. -/
def selectedFilings (wanted : List String) : List JVal → Except PyErr (List JVal)
  | [] => .ok []
  | f :: rest => do
      let keep ← formSelected wanted f
      let more ← selectedFilings wanted rest
      .ok (if keep then f :: more else more)

/-- `f` is a dict whose `"form"` (defaulted to `""`) is a string, so
selection cannot raise on it. -/
def hasStrForm : JVal → Bool
  | .obj fields =>
      match (jget fields "form").getD (.str "") with
      | .str _ => true
      | _ => false
  | _ => false

/-- The case-normalized category of a well-formed record. -/
def upperFormOf : JVal → String
  | .obj fields =>
      match (jget fields "form").getD (.str "") with
      | .str s => pyUpper s
      | _ => ""
  | _ => ""

/-- The sort key `lambda f: f.get("filingDate", "")`.  The records this is
applied to carry string dates; a non-string date would make Python's
`<` comparisons between keys raise and is outside the claims. -/
def dateKey : JVal → String
  | .obj fields =>
      match (jget fields "filingDate").getD (.str "") with
      | .str s => s
      | _ => ""
  | _ => ""

/-- Key comparison for the sort: lexicographic string order on the dates
(Lean's `String ≤`, code-point lexicographic, as in Python). -/
def dateLe (f g : JVal) : Bool := decide (dateKey f ≤ dateKey g)

/-- `selected.sort(key=lambda f: f.get("filingDate", ""))`: Python's sort is
stable and ascending by key; modelled by the stable `List.mergeSort`. -/
def sortByDate (selected : List JVal) : List JVal := selected.mergeSort dateLe

/-- `if args.max_filings and args.max_filings > 0: selected = selected[:args.max_filings]`. -/
def capFilings (maxFilings : Int) (selected : List JVal) : List JVal :=
  if maxFilings ≠ 0 ∧ 0 < maxFilings then selected.take maxFilings.toNat else selected

/-! ## The resilient fetcher: `create_session` retry policy plus `_fetch` -/

/-- `Retry(status_forcelist=(429, 500, 502, 503, 504))` from `create_session`. -/
def statusForcelist : List Nat := [429, 500, 502, 503, 504]

/-- One `session.get` through the `HTTPAdapter` configured in
`create_session` with `total=maxRetries` and `raise_on_status=False`:
the adapter re-issues the request while the received status is in
`statusForcelist` and retry budget remains, and finally hands the last
received response to the caller (it never raises on status itself, because
`raise_on_status=False`).  `responses` is the stream of responses the remote
would return to successive requests, as `(status, body)` pairs; the call
starts at stream position `i`.  Returns the delivered response and the total
number of network reads performed (final stream position).  Backoff sleep
times and the `Retry-After` header only affect timing and are not modelled. -/
def deliverFrom (responses : Nat → Nat × String) : Nat → Nat → (Nat × String) × Nat
  | 0, i => (responses i, i + 1)
  | budget + 1, i =>
      if (responses i).1 ∈ statusForcelist then
        deliverFrom responses budget (i + 1)
      else (responses i, i + 1)

/-- How one `_fetch` call ends: `.ok written` mirrors the spec's `{written}`
return value, `.httpError s` is the `requests.HTTPError` raised by
`r.raise_for_status()` carrying status `s`. -/
inductive FetchResult where
  | ok (written : Bool)
  | httpError (status : Nat)
deriving DecidableEq

/-- The observable outcome of one `_fetch` call: its result, the destination
file's content after the call, and how many network reads were performed. -/
structure FetchOutcome where
  result : FetchResult
  fileAfter : Option String
  reads : Nat
deriving DecidableEq

/-- `_fetch(url, path, session, ok_404)`:
* if the destination exists and is non-empty (`existing = some s`, `s ≠ ""`),
  return immediately;
* otherwise `session.get` (the retry adapter above) delivers a response;
* a delivered 404 with `ok_404` set returns without error;
* `r.raise_for_status()` raises for any delivered status in `[400, 600)`;
* otherwise the body is written to the destination. -/
def fetchToFile (existing : Option String) (ok404 : Bool) (maxRetries : Nat)
    (responses : Nat → Nat × String) : FetchOutcome :=
  if (existing.getD "").length > 0 then
    ⟨.ok false, existing, 0⟩
  else
    match deliverFrom responses maxRetries 0 with
    | ((s, body), reads) =>
      if s == 404 && ok404 then
        ⟨.ok false, existing, reads⟩
      else if 400 ≤ s ∧ s < 600 then
        ⟨.httpError s, existing, reads⟩
      else
        ⟨.ok true, some body, reads⟩

/-! ## Archive writer: `sanitize` and `readable_basename` -/

/-- Membership in the regex character class `[A-Za-z0-9._-]`. -/
def isAllowed (c : Char) : Bool :=
  ('A' ≤ c && c ≤ 'Z') || ('a' ≤ c && c ≤ 'z') || ('0' ≤ c && c ≤ '9') ||
    c == '.' || c == '_' || c == '-'

/-- `re.sub(r"[^A-Za-z0-9._-]+", "_", s)` over the character list: the flag
records whether we are inside a run of disallowed characters whose single
replacement underscore has already been emitted (the regex matches a maximal
non-empty run and the whole run is replaced by one `_`). -/
def sanitizeGo : Bool → List Char → List Char
  | _, [] => []
  | inRun, c :: cs =>
      if isAllowed c then c :: sanitizeGo false cs
      else if inRun then sanitizeGo true cs
      else '_' :: sanitizeGo true cs

/-- `sanitize(s)` from the source. -/
def sanitize (s : String) : String := ⟨sanitizeGo false s.data⟩

/-- Python `s.replace("/", "_")` for the single-character pattern: every
occurrence of `/` becomes `_`. -/
def pyReplaceSlash (cs : List Char) : List Char :=
  cs.map (fun c => if c == '/' then '_' else c)

/-- `readable_basename(form, date_str, ext)` from the source
(`ext.startswith('.')` for the one-character pattern is a first-character
test). -/
def readable_basename (form date_str ext : String) : String :=
  let safe_form : String := ⟨pyReplaceSlash (sanitize form).data⟩
  let safe_date := sanitize date_str
  let ext2 := if ext.data.head? == some '.' then ext else "." ++ ext
  safe_form ++ "_" ++ safe_date ++ ext2

/-- The full-submission file name built in `download_one_filing`:
`readable_basename(form, date, "txt")`. -/
def fullSubmissionName (form date_str : String) : String :=
  readable_basename form date_str "txt"

/-- The claim's reading of `sanitize`: each individual character outside the
class becomes its own underscore, so a run of `k` disallowed characters
yields `k` underscores. -/
def sanitizeCharwise (s : String) : String :=
  ⟨s.data.map (fun c => if isAllowed c then c else '_')⟩

/-- The full-submission file name as the claim states it, built from the
per-character `sanitize`. -/
def claimedFullSubmissionName (form date_str : String) : String :=
  sanitizeCharwise form ++ "_" ++ sanitizeCharwise date_str ++ ".txt"

/-- The spec-level description of what the regex substitution does: each
maximal run of characters outside `[A-Za-z0-9._-]` is replaced by a single
underscore, and allowed characters are kept unchanged. -/
def specCollapse : List Char → List Char
  | [] => []
  | c :: cs =>
      if isAllowed c then c :: specCollapse cs
      else '_' :: specCollapse (cs.dropWhile (fun d => !isAllowed d))
termination_by l => l.length
decreasing_by
  · simp
  · have h : (cs.dropWhile (fun d => !isAllowed d)).length ≤ cs.length :=
      List.Sublist.length_le (List.dropWhile_sublist _)
    simp
    omega

/-- If every response up to the retry budget is a forcelist status, the
adapter consumes the whole budget and delivers the last response. -/
theorem deliverFrom_all_forcelist (responses : Nat → Nat × String) :
    ∀ (budget i : Nat), (∀ j, j ≤ budget → (responses (i + j)).1 ∈ statusForcelist) →
      deliverFrom responses budget i = (responses (i + budget), i + budget + 1) := by
  intro budget
  induction budget with
  | zero => intro i _; simp [deliverFrom]
  | succ b ih =>
      intro i h
      have h0 : (responses i).1 ∈ statusForcelist := by
        have := h 0 (Nat.zero_le _)
        simpa using this
      have hrest : ∀ j, j ≤ b → (responses (i + 1 + j)).1 ∈ statusForcelist := by
        intro j hj
        have := h (j + 1) (by omega)
        have harith : i + (j + 1) = i + 1 + j := by omega
        rwa [harith] at this
      simp only [deliverFrom, h0, if_pos]
      rw [ih (i + 1) hrest]
      have harith2 : i + 1 + b = i + (b + 1) := by omega
      rw [harith2]

/-- A forcelist status is in `[400, 600)` and is not 404. -/
theorem forcelist_status_bounds {s : Nat} (h : s ∈ statusForcelist) :
    (400 ≤ s ∧ s < 600) ∧ s ≠ 404 := by
  simp only [statusForcelist, List.mem_cons, List.not_mem_nil, or_false] at h
  rcases h with h | h | h | h | h <;> subst h <;> omega

/-- C1: when the destination already exists as a non-empty file, `_fetch`
returns immediately with `written = false`, performs zero network reads, and
leaves the file's content unchanged. -/
theorem fetch_existing_nonempty_noop (s : String) (existing : Option String)
    (ok404 : Bool) (maxRetries : Nat) (responses : Nat → Nat × String)
    (hex : existing = some s) (hne : 0 < s.length) :
    fetchToFile existing ok404 maxRetries responses = ⟨.ok false, some s, 0⟩ := by
  subst hex
  simp [fetchToFile, hne]

/-- Witness for C1 at a concrete non-empty destination. -/
theorem fetch_existing_nonempty_noop_witness :
    fetchToFile (some "cached") true 5 (fun _ => (200, "body")) =
      ⟨.ok false, some "cached", 0⟩ :=
  fetch_existing_nonempty_noop "cached" (some "cached") true 5 (fun _ => (200, "body"))
    rfl (by decide)

/-- C2 counterexample: the claim quantifies over every 5xx status, but the
session's forcelist is only (429, 500, 502, 503, 504).  Status 501 is a 5xx
status, yet a 501 followed by a 200 is not retried: `_fetch` raises
immediately on the 501 after a single network read instead of retrying and
writing the file. -/
theorem fetch_5xx_counterexample :
    ¬ ∀ s : Nat, (s = 429 ∨ (500 ≤ s ∧ s ≤ 599)) →
      (fetchToFile none false 5
        (fun n => if n = 0 then (s, "transient") else (200, "payload"))).result =
          .ok true := by
  intro h
  exact absurd (h 501 (Or.inr (by omega))) (by decide)

/-- C2 (amended): statuses 429, 500, 502, 503, 504 are retried up to the
configured maximum attempt count, and a response sequence consisting
entirely of such statuses for `maxRetries + 1` attempts fails with an
`HTTPError` carrying the last transient status — the retry-exhaustion
outcome the spec names `TransientFetchExhausted` — with nothing written to
the destination.  Conversely, every forcelist status followed by a success
is retried: the file is written after two reads. -/
theorem fetch_forcelist_retry_exhaustion (maxRetries : Nat)
    (responses : Nat → Nat × String) (ok404 : Bool) (existing : Option String)
    (hex : (existing.getD "").length = 0)
    (hall : ∀ j, j ≤ maxRetries → (responses j).1 ∈ statusForcelist) :
    fetchToFile existing ok404 maxRetries responses =
      ⟨.httpError (responses maxRetries).1, existing, maxRetries + 1⟩ ∧
    ∀ s, s ∈ statusForcelist → ∀ body : String,
      fetchToFile none false 1 (fun n => if n = 0 then (s, "transient") else (200, body)) =
        ⟨.ok true, some body, 2⟩ := by
  constructor
  · have hdel : deliverFrom responses maxRetries 0 =
        (responses maxRetries, maxRetries + 1) := by
      have := deliverFrom_all_forcelist responses maxRetries 0 (by simpa using hall)
      simpa using this
    have hfl : (responses maxRetries).1 ∈ statusForcelist :=
      hall maxRetries (Nat.le_refl _)
    obtain ⟨hrange, h404⟩ := forcelist_status_bounds hfl
    simp only [fetchToFile, hex, gt_iff_lt, Nat.lt_irrefl, if_false, hdel]
    have hb : ((responses maxRetries).1 == 404 && ok404) = false := by
      simp [h404]
    simp [hb, hrange]
  · intro s hs body
    have hne : s ≠ 404 := (forcelist_status_bounds hs).2
    simp only [fetchToFile, Option.getD_none, String.length, deliverFrom]
    simp only [show ((0 : Nat) = 0) = True by simp, if_true, hs, if_pos]
    simp [deliverFrom]

/-- Witness for C2 (amended): three straight 503 responses with
`maxRetries = 2` exhaust the budget and raise carrying 503 after three
reads; a single 429 followed by a 200 is retried and written. -/
theorem fetch_forcelist_retry_exhaustion_witness :
    fetchToFile none false 2 (fun _ => (503, "busy")) = ⟨.httpError 503, none, 3⟩ ∧
    fetchToFile none false 1 (fun n => if n = 0 then (429, "transient") else (200, "ok")) =
      ⟨.ok true, some "ok", 2⟩ := by
  have h := fetch_forcelist_retry_exhaustion 2 (fun _ => (503, "busy")) false none
    (by decide) (fun j _ => by simp [statusForcelist])
  exact ⟨h.1, h.2 429 (by decide) "ok"⟩

/-- C3: with `ok_404 = true`, whenever the retry adapter ends up delivering a
404 — in particular after any number of transient retries — `_fetch` returns
without error, with `written = false` and nothing written to the
destination. -/
theorem fetch_delivered_404_skip (existing : Option String) (maxRetries : Nat)
    (responses : Nat → Nat × String)
    (hex : (existing.getD "").length = 0)
    (h404 : (deliverFrom responses maxRetries 0).1.1 = 404) :
    fetchToFile existing true maxRetries responses =
      ⟨.ok false, existing, (deliverFrom responses maxRetries 0).2⟩ := by
  simp only [fetchToFile, hex, gt_iff_lt, Nat.lt_irrefl, if_false]
  rcases hd : deliverFrom responses maxRetries 0 with ⟨⟨s, body⟩, reads⟩
  simp only [hd] at h404 ⊢
  subst h404
  simp

/-- Witness for C3: the response sequence [429, 429, 404] with
`maxRetries = 2` and `ok_404 = true` skips with `written = false`, no
exception, and no file created, after three reads. -/
theorem fetch_delivered_404_skip_witness :
    fetchToFile none true 2 (fun n => if n < 2 then (429, "busy") else (404, "gone")) =
      ⟨.ok false, none, 3⟩ :=
  fetch_delivered_404_skip none 2 (fun n => if n < 2 then (429, "busy") else (404, "gone"))
    (by decide) (by decide)

/-- `sanitizeGo` computes the run-collapsing substitution: out of a run it is
`specCollapse`, and inside a run it is `specCollapse` of the rest of the
run's tail. -/
theorem sanitizeGo_eq_specCollapse (cs : List Char) :
    sanitizeGo false cs = specCollapse cs ∧
    sanitizeGo true cs = specCollapse (cs.dropWhile (fun d => !isAllowed d)) := by
  induction cs with
  | nil => simp [sanitizeGo, specCollapse]
  | cons c cs ih =>
      by_cases hc : isAllowed c = true
      · constructor
        · rw [sanitizeGo, specCollapse]
          simp only [hc, if_true, ih.1]
        · rw [sanitizeGo]
          simp only [hc, if_true]
          rw [List.dropWhile_cons_of_neg (by simp [hc]), specCollapse]
          simp only [hc, if_true, ih.1]
      · have hc' : isAllowed c = false := by simpa using hc
        constructor
        · rw [sanitizeGo, specCollapse]
          simp only [hc', Bool.false_eq_true, if_false, ih.2]
        · rw [sanitizeGo]
          simp only [hc', Bool.false_eq_true, if_false, if_true]
          rw [List.dropWhile_cons_of_pos (by simp [hc']), ih.2]

/-- Every character emitted by `sanitizeGo` is an allowed character or an
underscore; in particular it is never a slash. -/
theorem sanitizeGo_no_slash (cs : List Char) :
    ∀ b, ∀ c ∈ sanitizeGo b cs, (c == '/') = false := by
  induction cs with
  | nil => intro b c hc; simp [sanitizeGo] at hc
  | cons a cs ih =>
      intro b c hc
      rw [sanitizeGo] at hc
      by_cases hA : isAllowed a = true
      · simp only [hA, if_true, List.mem_cons] at hc
        rcases hc with rfl | hc
        · by_cases h : c = '/'
          · subst h; simp [isAllowed] at hA
          · simpa using h
        · exact ih false c hc
      · have hA' : isAllowed a = false := by simpa using hA
        cases b with
        | true =>
            simp only [hA', Bool.false_eq_true, if_false, if_true] at hc
            exact ih true c hc
        | false =>
            simp only [hA', Bool.false_eq_true, if_false, List.mem_cons] at hc
            rcases hc with rfl | hc
            · decide
            · exact ih true c hc

/-- No character emitted by `sanitizeGo` is a slash, so the later
`.replace("/", "_")` in `readable_basename` is the identity on it. -/
theorem pyReplaceSlash_sanitizeGo (cs : List Char) (b : Bool) :
    pyReplaceSlash (sanitizeGo b cs) = sanitizeGo b cs := by
  unfold pyReplaceSlash
  have h : ∀ c ∈ sanitizeGo b cs,
      (if (c == '/') = true then '_' else c) = (fun x => x) c := by
    intro c hc
    simp [sanitizeGo_no_slash cs b c hc]
  rw [List.map_congr_left h, List.map_id']

/-- C4 counterexample: the claim's per-character `sanitize` would turn the
two-slash category `10-K//A` into `10-K__A…`, but the code's regex collapses
the run of two disallowed characters into a single underscore, producing
`10-K_A…`. -/
theorem name_run_collapse_counterexample :
    fullSubmissionName "10-K//A" "2023-06-03" = "10-K_A_2023-06-03.txt" ∧
    claimedFullSubmissionName "10-K//A" "2023-06-03" = "10-K__A_2023-06-03.txt" ∧
    fullSubmissionName "10-K//A" "2023-06-03" ≠
      claimedFullSubmissionName "10-K//A" "2023-06-03" := by
  refine ⟨by decide, by decide, by decide⟩

/-- C4 (amended): the full-submission file name is
`collapse(category) ++ "_" ++ collapse(filedOn) ++ ".txt"`, where `collapse`
keeps characters of `[A-Za-z0-9._-]` unchanged and replaces each maximal run
of other characters by a single underscore; in particular category `10-K/A`
with date `2023-06-03` yields `10-K_A_2023-06-03.txt`. -/
theorem name_is_collapsed_sanitize (category filedOn : String) :
    fullSubmissionName category filedOn =
      (⟨specCollapse category.data⟩ : String) ++ "_" ++
        (⟨specCollapse filedOn.data⟩ : String) ++ ".txt" ∧
    fullSubmissionName "10-K/A" "2023-06-03" = "10-K_A_2023-06-03.txt" := by
  constructor
  · show readable_basename category filedOn "txt" = _
    simp only [readable_basename, sanitize]
    rw [show (("txt".data.head? == some '.') = false) from by decide]
    simp only [Bool.false_eq_true, if_false]
    rw [pyReplaceSlash_sanitizeGo category.data false]
    rw [(sanitizeGo_eq_specCollapse category.data).1,
        (sanitizeGo_eq_specCollapse filedOn.data).1]
    rw [show (("." ++ "txt") : String) = ".txt" from by decide]
  · decide

/-- C10: any `_fetch` call that does not end in a successful write — an
existing-file skip, a skipped 404, or a raised `HTTPError` (including
exhausted retries) — leaves the destination exactly as it was: the file is
opened for writing only after the response has passed the status checks. -/
theorem fetch_no_write_on_failure (existing : Option String) (ok404 : Bool)
    (maxRetries : Nat) (responses : Nat → Nat × String)
    (h : (fetchToFile existing ok404 maxRetries responses).result ≠ .ok true) :
    (fetchToFile existing ok404 maxRetries responses).fileAfter = existing := by
  by_cases hex : (existing.getD "").length > 0
  · simp [fetchToFile, hex]
  · simp only [fetchToFile, hex, if_false] at h ⊢
    rcases hd : deliverFrom responses maxRetries 0 with ⟨⟨s, body⟩, reads⟩
    simp only [hd] at h ⊢
    by_cases h404 : (s == 404 && ok404) = true
    · simp [h404]
    · simp only [h404, Bool.false_eq_true, if_false] at h ⊢
      by_cases hcl : 400 ≤ s ∧ s < 600
      · simp [hcl]
      · simp [hcl] at h

/-- Witness for C10 at a concrete failing call: a plain 404 with
`ok_404 = false` raises and creates no file. -/
theorem fetch_no_write_on_failure_witness :
    (fetchToFile none false 0 (fun _ => (404, "gone"))).fileAfter = none :=
  fetch_no_write_on_failure none false 0 (fun _ => (404, "gone")) (by decide)

/-! ## Enumeration theorems -/

/-- `Except` bind on a success just applies the continuation. -/
theorem exceptBind_ok {α β : Type} (a : α) (f : α → Except PyErr β) :
    (do
      let x ← (.ok a : Except PyErr α)
      f x) = f a := rfl

/-- Array indexing within bounds succeeds with the positional element. -/
theorem pyIndex_arr {xs : List JVal} {i : Nat} (h : i < xs.length) :
    pyIndex (.arr xs) i = .ok (xs.getD i .null) := by
  simp only [pyIndex, List.get?_eq_getElem?, List.getElem?_eq_getElem h,
    List.getD_eq_getElem?_getD, Option.getD_some]

/-- When the four recent-page members are arrays and the loop bound is within
all four lengths, the loop yields the positional records in index order. -/
theorem recentLoop_arr (as bs cs ds : List JVal) :
    ∀ n, n ≤ as.length → n ≤ bs.length → n ≤ cs.length → n ≤ ds.length →
      recentLoop (.arr as) (.arr bs) (.arr cs) (.arr ds) n =
        .ok ((List.range n).map (fun i =>
          mkRecord (as.getD i .null) (bs.getD i .null) (cs.getD i .null)
            (ds.getD i .null))) := by
  intro n
  induction n with
  | zero => intro _ _ _ _; rfl
  | succ n ih =>
      intro ha hb hc hd
      rw [recentLoop, ih (by omega) (by omega) (by omega) (by omega), exceptBind_ok,
        pyIndex_arr (by omega), exceptBind_ok, pyIndex_arr (by omega), exceptBind_ok,
        pyIndex_arr (by omega), exceptBind_ok, pyIndex_arr (by omega), exceptBind_ok]
      rw [List.range_succ]
      simp

/-- C5 (amended): an overflow page that decodes to an object whose `filings`
member (defaulting to the empty array when absent) is an array contributes
exactly its record-shaped entries, raising no error — entries of unexpected
shape are skipped individually, so a page with no record-shaped entry
contributes zero records. -/
theorem chunk_filters_recordShaped (fields : List (String × JVal)) (items : List JVal)
    (h : (jget fields "filings").getD (.arr []) = .arr items) :
    iterFilingsFromChunk (.obj fields) = .ok (items.filter isRecordShaped) := by
  have h1 : pyGetD (.obj fields) "filings" (.arr []) = .ok (.arr items) := by
    show Except.ok ((jget fields "filings").getD (.arr [])) = _
    rw [h]
  unfold iterFilingsFromChunk
  rw [h1, exceptBind_ok, show pyIter (.arr items) = (.ok items : Except PyErr _) from rfl,
    exceptBind_ok]

/-- Witness for C5 (amended): a page holding one record-shaped entry and one
stray string contributes exactly the record-shaped entry. -/
theorem chunk_filters_recordShaped_witness :
    iterFilingsFromChunk (.obj [("filings", .arr [goodRec, .str "stray"])]) =
      .ok [goodRec] :=
  chunk_filters_recordShaped [("filings", .arr [goodRec, .str "stray"])]
    [goodRec, .str "stray"] rfl

/-- C5 counterexample: a page whose `filings` array mixes one record-shaped
entry with one malformed entry is not shaped as the claim expects, yet it
contributes one record, not zero. -/
theorem chunk_zero_records_counterexample :
    pageWellShaped (.obj [("filings", .arr [goodRec, .num 1])]) = false ∧
    iterFilingsFromChunk (.obj [("filings", .arr [goodRec, .num 1])]) = .ok [goodRec] ∧
    ¬ ([goodRec] : List JVal).length = 0 :=
  ⟨rfl, rfl, by decide⟩

/-- A manifest entry whose name ends in `".json"` fetches and yields its
chunk's records before continuing with the rest of the manifest. -/
theorem chunksRecords_cons_json (net : String → JVal) (name : String) (rest : List JVal)
    (h : pyEndsWith name ".json" = true) :
    chunksRecords net (.obj [("name", .str name)] :: rest) =
      (do
        let recs ← iterFilingsFromChunk (net (olderUrl name))
        let more ← chunksRecords net rest
        (.ok (recs ++ more) : Except PyErr (List JVal))) := by
  have hne : name ≠ "" := by
    intro he
    rw [he] at h
    exact absurd h (by decide)
  have ht : truthy (.str name) = true := by simp [truthy, hne]
  rw [chunksRecords,
    show pyGetD (.obj [("name", .str name)]) "name" .null = .ok (.str name) from rfl,
    exceptBind_ok]
  simp [ht, h]

/-- A manifest entry whose name does not end in `".json"` is skipped. -/
theorem chunksRecords_cons_skip (net : String → JVal) (name : String) (rest : List JVal)
    (h : pyEndsWith name ".json" = false) :
    chunksRecords net (.obj [("name", .str name)] :: rest) = chunksRecords net rest := by
  rw [chunksRecords,
    show pyGetD (.obj [("name", .str name)]) "name" .null = .ok (.str name) from rfl,
    exceptBind_ok]
  cases ht : truthy (.str name) with
  | true => simp [ht, h]
  | false => simp [ht]

/-- C6: with a recent page of four arrays and a manifest of two `.json`
entries around one non-`.json` entry, enumeration yields exactly the recent
records followed by the two chunks' records in manifest order, so the count
is N + M1 + M2; the non-`.json` entry contributes nothing. -/
theorem enumeration_union_order (net : String → JVal)
    (forms accs dates prims : List JVal) (name1 nameBad name2 : String)
    (page1 page2 : JVal) (older1 older2 : List JVal)
    (h1 : pyEndsWith name1 ".json" = true) (h2 : pyEndsWith name2 ".json" = true)
    (hb : pyEndsWith nameBad ".json" = false)
    (hn1 : net (olderUrl name1) = page1) (hn2 : net (olderUrl name2) = page2)
    (hp1 : iterFilingsFromChunk page1 = .ok older1)
    (hp2 : iterFilingsFromChunk page2 = .ok older2) :
    iterFilingsFromSubmissions net
      (.obj [("filings", .obj
        [("recent", .obj [("form", .arr forms), ("accessionNumber", .arr accs),
                          ("filingDate", .arr dates), ("primaryDocument", .arr prims)]),
         ("files", .arr [.obj [("name", .str name1)],
                         .obj [("name", .str nameBad)],
                         .obj [("name", .str name2)]])])]) =
      .ok (recentZip forms accs dates prims ++ older1 ++ older2) ∧
    (recentZip forms accs dates prims ++ older1 ++ older2).length =
      min (min forms.length accs.length) (min dates.length prims.length)
        + older1.length + older2.length := by
  have hchunks : chunksRecords net
      [.obj [("name", .str name1)], .obj [("name", .str nameBad)],
        .obj [("name", .str name2)]] = .ok (older1 ++ older2) := by
    rw [chunksRecords_cons_json net name1 _ h1, hn1, hp1, exceptBind_ok,
      chunksRecords_cons_skip net nameBad _ hb,
      chunksRecords_cons_json net name2 _ h2, hn2, hp2, exceptBind_ok,
      show chunksRecords net ([] : List JVal) = .ok [] from rfl, exceptBind_ok,
      exceptBind_ok]
    simp
  constructor
  · have step : iterFilingsFromSubmissions net
        (.obj [("filings", .obj
          [("recent", .obj [("form", .arr forms), ("accessionNumber", .arr accs),
                            ("filingDate", .arr dates), ("primaryDocument", .arr prims)]),
           ("files", .arr [.obj [("name", .str name1)],
                           .obj [("name", .str nameBad)],
                           .obj [("name", .str name2)]])])]) =
        (do
          let recentRecs ← recentLoop (.arr forms) (.arr accs) (.arr dates) (.arr prims)
            (min (min forms.length accs.length) (min dates.length prims.length))
          let olderRecs ← chunksRecords net
            [.obj [("name", .str name1)], .obj [("name", .str nameBad)],
              .obj [("name", .str name2)]]
          (.ok (recentRecs ++ olderRecs) : Except PyErr (List JVal))) := rfl
    rw [step,
      recentLoop_arr forms accs dates prims _ (by omega) (by omega) (by omega) (by omega),
      exceptBind_ok, hchunks, exceptBind_ok]
    simp [recentZip]
  · simp only [List.length_append, recentZip, List.length_map, List.length_range]

/-- Witness for C6: one recent record plus overflow chunks of two and one
records, with a `.txt` manifest entry in between contributing nothing. -/
theorem enumeration_union_order_witness :
    iterFilingsFromSubmissions
      (fun u => if u = olderUrl "older-1.json"
        then .obj [("filings", .arr
          [mkRecord (.str "10-K") (.str "a2") (.str "2001-01-01") (.str "d2.htm"),
           mkRecord (.str "10-Q") (.str "a3") (.str "2001-04-01") (.str "d3.htm")])]
        else if u = olderUrl "older-2.json"
        then .obj [("filings", .arr
          [mkRecord (.str "10-K") (.str "a4") (.str "2000-01-01") (.str "d4.htm")])]
        else .null)
      (.obj [("filings", .obj
        [("recent", .obj [("form", .arr [.str "10-K"]),
                          ("accessionNumber", .arr [.str "a1"]),
                          ("filingDate", .arr [.str "2023-11-03"]),
                          ("primaryDocument", .arr [.str "doc.htm"])]),
         ("files", .arr [.obj [("name", .str "older-1.json")],
                         .obj [("name", .str "older.txt")],
                         .obj [("name", .str "older-2.json")]])])]) =
      .ok (recentZip [.str "10-K"] [.str "a1"] [.str "2023-11-03"] [.str "doc.htm"]
            ++ [mkRecord (.str "10-K") (.str "a2") (.str "2001-01-01") (.str "d2.htm"),
                mkRecord (.str "10-Q") (.str "a3") (.str "2001-04-01") (.str "d3.htm")]
            ++ [mkRecord (.str "10-K") (.str "a4") (.str "2000-01-01") (.str "d4.htm")]) ∧
    (recentZip [.str "10-K"] [.str "a1"] [.str "2023-11-03"] [.str "doc.htm"]
        ++ [mkRecord (.str "10-K") (.str "a2") (.str "2001-01-01") (.str "d2.htm"),
            mkRecord (.str "10-Q") (.str "a3") (.str "2001-04-01") (.str "d3.htm")]
        ++ [mkRecord (.str "10-K") (.str "a4") (.str "2000-01-01") (.str "d4.htm")]).length
      = 4 :=
  enumeration_union_order _ _ _ _ _ "older-1.json" "older.txt" "older-2.json" _ _ _ _
    (by decide) (by decide) (by decide) rfl rfl rfl rfl

/-- C7: when the recent page's four parallel arrays have arbitrary (possibly
unequal) lengths, enumeration yields exactly min-of-the-four-lengths records,
the i-th built from the i-th elements of the four arrays, with no error. -/
theorem recent_truncates_to_shortest (net : String → JVal)
    (forms accs dates prims : List JVal) :
    iterFilingsFromSubmissions net
      (.obj [("filings", .obj
        [("recent", .obj [("form", .arr forms), ("accessionNumber", .arr accs),
                          ("filingDate", .arr dates),
                          ("primaryDocument", .arr prims)])])]) =
      .ok (recentZip forms accs dates prims) ∧
    (recentZip forms accs dates prims).length =
      min (min forms.length accs.length) (min dates.length prims.length) := by
  constructor
  · have step : iterFilingsFromSubmissions net
        (.obj [("filings", .obj
          [("recent", .obj [("form", .arr forms), ("accessionNumber", .arr accs),
                            ("filingDate", .arr dates),
                            ("primaryDocument", .arr prims)])])]) =
        (do
          let recentRecs ← recentLoop (.arr forms) (.arr accs) (.arr dates) (.arr prims)
            (min (min forms.length accs.length) (min dates.length prims.length))
          (.ok (recentRecs ++ []) : Except PyErr (List JVal))) := rfl
    rw [step,
      recentLoop_arr forms accs dates prims _ (by omega) (by omega) (by omega) (by omega),
      exceptBind_ok]
    simp [recentZip]
  · simp [recentZip]

/-! ## Selection and ordering theorems -/

/-- On a record with a string form, the selection predicate succeeds with
membership of the case-normalized category in the wanted set. -/
theorem formSelected_ok (wanted : List String) (f : JVal)
    (hf : hasStrForm f = true) :
    formSelected wanted f = .ok (wanted.contains (upperFormOf f)) := by
  cases f with
  | obj fields =>
      cases hform : (jget fields "form").getD (.str "") with
      | str s => simp [formSelected, upperFormOf, hform]
      | null => simp [hasStrForm, hform] at hf
      | bool b => simp [hasStrForm, hform] at hf
      | num n => simp [hasStrForm, hform] at hf
      | arr xs => simp [hasStrForm, hform] at hf
      | obj fs => simp [hasStrForm, hform] at hf
  | null => simp [hasStrForm] at hf
  | bool b => simp [hasStrForm] at hf
  | num n => simp [hasStrForm] at hf
  | str s => simp [hasStrForm] at hf
  | arr xs => simp [hasStrForm] at hf

/-- C8: over records whose form is a string, a record passes the
`main` filter exactly when its upper-cased category is in the wanted set
expanded (for `includeAmendments`) with each base label plus `"/A"` — the
selection is the list filter by membership in the expanded set, in input
order and raising no error. -/
theorem selection_iff_expanded (baseForms : List String) (includeAmendments : Bool)
    (filings : List JVal) (hwf : ∀ f ∈ filings, hasStrForm f = true) :
    selectedFilings (expandForms baseForms includeAmendments) filings =
      .ok (filings.filter (fun f =>
        (expandForms baseForms includeAmendments).contains (upperFormOf f))) := by
  induction filings with
  | nil => rfl
  | cons f rest ih =>
      have hf : hasStrForm f = true := hwf f (List.mem_cons_self f rest)
      have hrest := ih (fun g hg => hwf g (List.mem_cons_of_mem f hg))
      rw [selectedFilings, formSelected_ok _ f hf, exceptBind_ok, hrest, exceptBind_ok,
        List.filter_cons]

/-- Witness for C8: wanted base {10-K} with amendments expands to
{10-K, 10-K/A}; of records with categories 10-K, 10-K/A and 8-K exactly the
first two are selected, in order. -/
theorem selection_iff_expanded_witness :
    selectedFilings (expandForms ["10-K"] true)
      [mkRecord (.str "10-K") (.str "a1") (.str "2020-01-01") (.str "d1"),
       mkRecord (.str "10-K/A") (.str "a2") (.str "2020-02-01") (.str "d2"),
       mkRecord (.str "8-K") (.str "a3") (.str "2020-03-01") (.str "d3")] =
      .ok [mkRecord (.str "10-K") (.str "a1") (.str "2020-01-01") (.str "d1"),
           mkRecord (.str "10-K/A") (.str "a2") (.str "2020-02-01") (.str "d2")] :=
  selection_iff_expanded ["10-K"] true
    [mkRecord (.str "10-K") (.str "a1") (.str "2020-01-01") (.str "d1"),
     mkRecord (.str "10-K/A") (.str "a2") (.str "2020-02-01") (.str "d2"),
     mkRecord (.str "8-K") (.str "a3") (.str "2020-03-01") (.str "d3")]
    (by decide)

/-- The date-key order is transitive. -/
theorem dateLe_trans (a b c : JVal) (hab : dateLe a b) (hbc : dateLe b c) :
    dateLe a c := by
  simp only [dateLe, decide_eq_true_eq] at hab hbc ⊢
  exact le_trans hab hbc

/-- The date-key order is total. -/
theorem dateLe_total (a b : JVal) : dateLe a b || dateLe b a := by
  simp only [dateLe]
  rcases le_total (dateKey a) (dateKey b) with h | h <;> simp [h]

/-- C9: `sortByDate` orders the selected records ascending by filed-on date
(lexicographic string compare on the key); records with equal dates keep
their relative input order (the filter by any fixed date is unchanged); and
a positive cap is applied after the sort, taking the first
`maxFilings` elements of the sorted sequence — the earliest matches. -/
theorem sort_stable_cap_after (selected : List JVal) (maxFilings : Int)
    (hpos : 0 < maxFilings) :
    List.Pairwise (fun f g => dateLe f g = true) (sortByDate selected) ∧
    (∀ k : String, (sortByDate selected).filter (fun f => dateKey f == k) =
        selected.filter (fun f => dateKey f == k)) ∧
    capFilings maxFilings (sortByDate selected) =
      (sortByDate selected).take maxFilings.toNat := by
  refine ⟨?_, ?_, ?_⟩
  · exact List.sorted_mergeSort dateLe_trans dateLe_total selected
  · intro k
    have hperm : List.Perm ((sortByDate selected).filter (fun f => dateKey f == k))
        (selected.filter (fun f => dateKey f == k)) :=
      (List.mergeSort_perm selected dateLe).filter _
    have hpair : (selected.filter (fun f => dateKey f == k)).Pairwise
        (fun f g => dateLe f g = true) := by
      apply List.pairwise_of_forall_mem_list
      intro a ha b hb
      have hak : dateKey a = k := by
        have := (List.mem_filter.mp ha).2
        simpa using this
      have hbk : dateKey b = k := by
        have := (List.mem_filter.mp hb).2
        simpa using this
      simp [dateLe, hak, hbk]
    have hsub : List.Sublist (selected.filter (fun f => dateKey f == k))
        (sortByDate selected) :=
      List.sublist_mergeSort dateLe_trans dateLe_total hpair
        (List.filter_sublist selected)
    have hsub2 : List.Sublist (selected.filter (fun f => dateKey f == k))
        ((sortByDate selected).filter (fun f => dateKey f == k)) := by
      have h2 := hsub.filter (fun f => dateKey f == k)
      rwa [List.filter_eq_self.mpr (fun a ha => (List.mem_filter.mp ha).2)] at h2
    exact (hsub2.eq_of_length hperm.length_eq.symm).symm
  · rw [capFilings, if_pos (And.intro (by omega) hpos)]

/-- Witness for C9 at a concrete list with a duplicate date and cap 2: the
sorted order is ascending, the two records dated 2023-06-03 keep their
relative order, and the cap takes the first two sorted elements. -/
theorem sort_stable_cap_after_witness :
    List.Pairwise (fun f g => dateLe f g = true)
      (sortByDate
        [mkRecord (.str "10-K") (.str "a1") (.str "2023-06-03") (.str "d1"),
         mkRecord (.str "10-K/A") (.str "a2") (.str "2023-06-03") (.str "d2"),
         mkRecord (.str "10-Q") (.str "a3") (.str "2020-01-01") (.str "d3")]) ∧
    (sortByDate
        [mkRecord (.str "10-K") (.str "a1") (.str "2023-06-03") (.str "d1"),
         mkRecord (.str "10-K/A") (.str "a2") (.str "2023-06-03") (.str "d2"),
         mkRecord (.str "10-Q") (.str "a3") (.str "2020-01-01") (.str "d3")]).filter
        (fun f => dateKey f == "2023-06-03") =
      [mkRecord (.str "10-K") (.str "a1") (.str "2023-06-03") (.str "d1"),
       mkRecord (.str "10-K/A") (.str "a2") (.str "2023-06-03") (.str "d2"),
       mkRecord (.str "10-Q") (.str "a3") (.str "2020-01-01") (.str "d3")].filter
        (fun f => dateKey f == "2023-06-03") ∧
    capFilings 2
      (sortByDate
        [mkRecord (.str "10-K") (.str "a1") (.str "2023-06-03") (.str "d1"),
         mkRecord (.str "10-K/A") (.str "a2") (.str "2023-06-03") (.str "d2"),
         mkRecord (.str "10-Q") (.str "a3") (.str "2020-01-01") (.str "d3")]) =
      (sortByDate
        [mkRecord (.str "10-K") (.str "a1") (.str "2023-06-03") (.str "d1"),
         mkRecord (.str "10-K/A") (.str "a2") (.str "2023-06-03") (.str "d2"),
         mkRecord (.str "10-Q") (.str "a3") (.str "2020-01-01") (.str "d3")]).take 2 := by
  have h := sort_stable_cap_after
    [mkRecord (.str "10-K") (.str "a1") (.str "2023-06-03") (.str "d1"),
     mkRecord (.str "10-K/A") (.str "a2") (.str "2023-06-03") (.str "d2"),
     mkRecord (.str "10-Q") (.str "a3") (.str "2020-01-01") (.str "d3")] 2 (by decide)
  exact ⟨h.1, h.2.1 "2023-06-03", h.2.2⟩

end SecDownload
